import Mathlib

/-!
# Verification of `fn-time` (`src/index.js`)

A shallow embedding of the single exported function `timer(state, now, out)`
together with its module-level constants `steps`, `stepDef`, `startDef` and
`nowDef`, and proofs of the specification's claims about it.

Modelling conventions:

* JS numbers are idealized as rationals (`ℚ`).  The exotic float value `NaN`
  is kept as an explicit extra value `JVal.nan`, since it arises from JS
  string coercions (`'1+2' - 1`); float rounding itself is not modelled.
* The values that can flow through the computation (the `time` slot, the
  intermediate `t1`/`dt`, the bare return) are numbers, strings or `NaN`
  (`JVal`).  The `step` field is a string or a number (`StepVal`), per the
  documented type `string|number`.  The `now` argument is a number, a string,
  or a zero-argument function (`SampleVal`); functions are modelled by the
  number they return (`Date.now` by an explicit `clock` parameter), and the
  interpreter counts how often a function value is invoked via `t()`.
* `String(number)` conversion (needed for JS `+` when one operand is a
  string) is exact decimal expansion, truncated after 64 fractional digits;
  JS doubles always have a finite decimal expansion, so the truncation only
  concerns rationals outside the float-representable idealization.
* `Number(string)` parsing covers the plain decimal literals (optional sign,
  digits, optional fraction, surrounding whitespace, and the empty string,
  which JS converts to `0`); exotic forms (hex, exponents, `Infinity`) are
  treated as non-numeric.
* The `out` argument is modelled by `OutArg`: omitted (so it defaults to
  `state` and aliases it), an explicit fresh object distinct from `state`, or
  an explicit falsy value.  Mutation is modelled by returning the final
  contents of the state object and of the fresh object (when one was passed),
  together with which object was returned.
* A JS `TypeError` (calling a non-callable) is `Except.error JsError.typeError`.
-/

/-- A runtime value that can sit in the `time`/`dt` slots or be returned bare:
a JS number (idealized as `ℚ`), a JS string, or the float value `NaN`. -/
inductive JVal where
  | num (q : ℚ)
  | str (s : String)
  | nan
deriving DecidableEq, Repr

/-- The documented type of `state.step`: a string or a number. -/
inductive StepVal where
  | str (s : String)
  | num (q : ℚ)
deriving DecidableEq, Repr

/-- The `now` argument: a number, a string (malformed input), or a
zero-argument function modelled by the number it returns. -/
inductive SampleVal where
  | num (q : ℚ)
  | str (s : String)
  | fn (ret : ℚ)
deriving DecidableEq, Repr

/-- A record object `{ time, dt, step }`; `none` models an absent property.
Used both for the caller's `state` and for output objects. -/
structure Rec where
  time : Option JVal := none
  dt : Option JVal := none
  step : Option StepVal := none
deriving DecidableEq, Repr

/-- The `out` argument: omitted (defaults to `state`, aliasing it), an
explicit object distinct from `state`, or an explicit falsy value. -/
inductive OutArg where
  | omitted
  | fresh (o : Rec)
  | falsy
deriving DecidableEq, Repr

/-- The JS exception raised when a non-callable value is called. -/
inductive JsError where
  | typeError
deriving DecidableEq, Repr

/-- Which object a successful record-producing call returned. -/
inductive RetVal where
  | bare (v : JVal)
  | stateRef
  | freshRef
deriving DecidableEq, Repr

/-- The outcome of a successful call: the returned value/object, the final
contents of the `state` object, the final contents of the explicit fresh
`out` object when one was passed, and how many times a function value was
invoked via `t()`. -/
structure TimerOut where
  ret : RetVal
  state : Rec
  fresh : Option Rec
  samplerCalls : ℕ
deriving DecidableEq, Repr

/-! ## The module-level constants of `src/index.js` -/

/-- `steps = { diff: '-', dt: '-', '⏳': '-', pause: 0, '⏸': 0, add: '+', '⏭': '+' }`
as a JS property lookup: `none` is an absent key (`undefined`).  Numeric
keys would be converted to strings, and the table has no numeric-string
keys, so every numeric lookup misses. -/
def steps : StepVal → Option StepVal
  | .str "diff" => some (.str "-")
  | .str "dt" => some (.str "-")
  | .str "⏳" => some (.str "-")
  | .str "pause" => some (.num 0)
  | .str "⏸" => some (.num 0)
  | .str "add" => some (.str "+")
  | .str "⏭" => some (.str "+")
  | _ => none

/-- `stepDef = steps.diff`, i.e. `'-'`. -/
def stepDef : StepVal := .str "-"

/-- `startDef = 0`. -/
def startDef : ℚ := 0

/-! ## JS coercions used by the arithmetic in `timer` -/

/-- Digit list to its decimal value. -/
def decNatVal (cs : List Char) : ℕ :=
  cs.foldl (fun a c => a * 10 + (c.toNat - '0'.toNat)) 0

/-- JS whitespace stripped by `Number(string)` (the common cases). -/
def isWsChar (c : Char) : Bool :=
  c = ' ' || c = '\t' || c = '\n' || c = '\r'

/-- `Number(string)`: `some q` when the string converts to the number `q`,
`none` when it converts to `NaN`.  Covers trimmed plain decimal literals and
the empty string (which JS converts to `0`); exotic forms are non-numeric. -/
def jsStrToNum (s : String) : Option ℚ :=
  let cs := ((s.toList.dropWhile isWsChar).reverse.dropWhile isWsChar).reverse
  if cs = [] then some 0 else
  let signAndDigits : ℚ × List Char :=
    match cs with
    | '-' :: rest => (-1, rest)
    | '+' :: rest => (1, rest)
    | _ => (1, cs)
  let sign := signAndDigits.1
  let body := signAndDigits.2
  let intPart := body.takeWhile Char.isDigit
  let rest := body.dropWhile Char.isDigit
  match rest with
  | [] => if intPart = [] then none else some (sign * decNatVal intPart)
  | '.' :: frac =>
      if frac.all Char.isDigit && !(intPart = [] && frac = []) then
        some (sign * ((decNatVal intPart : ℚ) + (decNatVal frac : ℚ) / (10 ^ frac.length)))
      else none
  | _ => none

/-- Exact decimal digits of a rational in `[0, 1)`, with fuel. -/
def fracDigitsAux : ℕ → ℚ → String
  | 0, _ => ""
  | n + 1, q =>
      if q = 0 then ""
      else
        let d : ℤ := Rat.floor (q * 10)
        toString d ++ fracDigitsAux n (q * 10 - (d : ℚ))

/-- `String(number)`: exact for integers, exact finite decimal expansion for
fractions (truncated past 64 digits, beyond any JS-double expansion). -/
def ratToJsString (q : ℚ) : String :=
  if q.den = 1 then toString q.num
  else
    let a := |q|
    let ip := Rat.floor a
    (if q < 0 then "-" else "") ++ toString ip ++ "." ++ fracDigitsAux 64 (a - (ip : ℚ))

/-- JS `String(v)` on a runtime value. -/
def jsToString : JVal → String
  | .num q => ratToJsString q
  | .str s => s
  | .nan => "NaN"

/-- JS `Number(v)` on a runtime value (`none` is `NaN`). -/
def jsToNumber : JVal → Option ℚ
  | .num q => some q
  | .str s => jsStrToNum s
  | .nan => none

/-- JS `+`: string concatenation when either operand is a string, numeric
addition otherwise, with `NaN` propagation. -/
def jsAdd : JVal → JVal → JVal
  | .str a, b => .str (a ++ jsToString b)
  | a, .str b => .str (jsToString a ++ b)
  | .num a, .num b => .num (a + b)
  | _, _ => .nan

/-- JS `-`: both operands coerced to numbers, with `NaN` propagation. -/
def jsSub (a b : JVal) : JVal :=
  match jsToNumber a, jsToNumber b with
  | some x, some y => .num (x - y)
  | _, _ => .nan

/-- JS `isNaN(v)` on a non-function value: `Number(v)` is `NaN`. -/
def jvIsNaN (v : JVal) : Bool :=
  match v with
  | .num _ => false
  | .str s => (jsStrToNum s).isNone
  | .nan => true

/-- Truthiness of a `step` value: `0` and `''` are the falsy cases. -/
def stepFalsy : StepVal → Bool
  | .num q => decide (q = 0)
  | .str s => decide (s = "")

/-- A `step` value viewed as a runtime value. -/
def stepToJVal : StepVal → JVal
  | .str s => .str s
  | .num q => .num q

/-! ## The `timer` function -/

/-- The value bound to `t` in the source: a plain value or a zero-argument
function (a caller-supplied sampler, or `Date.now`). -/
inductive TVal where
  | val (v : JVal)
  | fn (ret : ℚ)
deriving DecidableEq, Repr

/-- `nowDef = { [steps.diff]: Date.now, [steps.add]: 1e3/60 }` as a property
lookup on the resolved step code; `Date.now` is the function returning the
ambient `clock`. -/
def nowDef (clock : ℚ) : StepVal → Option TVal
  | .str "-" => some (.fn clock)
  | .str "+" => some (.val (.num (1000 / 60)))
  | _ => none

/-- `const s = (steps[step] ?? step)`. -/
def resolveStep (step : StepVal) : StepVal :=
  (steps step).getD step

/-- `const t = (now ?? nowDef[s] ?? s)`. -/
def resolveT (clock : ℚ) (s : StepVal) (now : Option SampleVal) : TVal :=
  match now with
  | some (.num q) => .val (.num q)
  | some (.str st) => .val (.str st)
  | some (.fn q) => .fn q
  | none => (nowDef clock s).getD (.val (stepToJVal s))

/-- `(isNaN(t)) ? t() : t`, paired with how many times `t()` was invoked:
a function coerces to `NaN`, so it is invoked; a non-callable value with
`isNaN(t)` true is called anyway, raising a `TypeError`. -/
def evalSample : TVal → Except JsError (JVal × ℕ)
  | .fn r => .ok (.num r, 1)
  | .val v => if jvIsNaN v then .error .typeError else .ok (v, 0)

/-- The computation shared by all return paths of `timer`:
`t0`, `step`, `s`, `t`, then
`t1 = ((!s)? t0 : ((diff)? 0 : t0)+((isNaN(t))? t() : t))` and `dt = t1-t0`.
Returns `(t1, dt, step, samplerCalls)`. -/
def timerCore (clock : ℚ) (state : Rec) (now : Option SampleVal) :
    Except JsError (JVal × JVal × StepVal × ℕ) :=
  let t0 : JVal := state.time.getD (.num startDef)
  let step : StepVal := state.step.getD stepDef
  let s : StepVal := resolveStep step
  let t : TVal := resolveT clock s now
  if stepFalsy s then
    .ok (t0, jsSub t0 t0, step, 0)
  else
    match evalSample t with
    | .error e => .error e
    | .ok (x, n) =>
        let t1 := jsAdd (if s = StepVal.str "-" then .num 0 else t0) x
        .ok (t1, jsSub t1 t0, step, n)

/-- `timer(state, now, out)` of `src/index.js`: computes `t1`/`dt`, then
either returns the relevant bare value (`dt` for diff, `t1` otherwise) when
`out` is falsy, or writes `time`/`dt`/`step` into `out` (the state object
itself when `out` was omitted) and returns that object. -/
def timer (clock : ℚ) (state : Rec) (now : Option SampleVal) (outArg : OutArg) :
    Except JsError TimerOut :=
  match timerCore clock state now with
  | .error e => .error e
  | .ok (t1, dt, step, calls) =>
      match outArg with
      | .falsy =>
          .ok ⟨.bare (if resolveStep (state.step.getD stepDef) = StepVal.str "-" then dt else t1),
            state, none, calls⟩
      | .omitted =>
          .ok ⟨.stateRef, { state with time := some t1, dt := some dt, step := some step },
            none, calls⟩
      | .fresh o =>
          .ok ⟨.freshRef, state, some { o with time := some t1, dt := some dt, step := some step },
            calls⟩

/-- The record a successful call returned, when it returned one. -/
def retRecord (res : TimerOut) : Option Rec :=
  match res.ret with
  | .bare _ => none
  | .stateRef => some res.state
  | .freshRef => res.fresh

/-! ## Helper lemmas shared by the claims -/

/-- When the resolved step is falsy, `timer` takes the pause branch:
`t1 = t0`, `dt = t0 - t0`, and `t()` is never invoked. -/
theorem timerCore_pause (clock : ℚ) (st : Rec) (now : Option SampleVal)
    (hF : stepFalsy (resolveStep (st.step.getD stepDef)) = true) :
    timerCore clock st now =
      .ok (st.time.getD (JVal.num startDef),
        jsSub (st.time.getD (JVal.num startDef)) (st.time.getD (JVal.num startDef)),
        st.step.getD stepDef, 0) := by
  simp [timerCore, hF]

/-- When the resolved step is truthy and the sample evaluates to `x` with `n`
invocations, `timer` computes `t1 = (diff ? 0 : t0) + x` and `dt = t1 - t0`. -/
theorem timerCore_run (clock : ℚ) (st : Rec) (now : Option SampleVal)
    (hF : stepFalsy (resolveStep (st.step.getD stepDef)) = false)
    (x : JVal) (n : ℕ)
    (hE : evalSample (resolveT clock (resolveStep (st.step.getD stepDef)) now) = .ok (x, n)) :
    timerCore clock st now = .ok
      (jsAdd (if resolveStep (st.step.getD stepDef) = StepVal.str "-" then JVal.num 0
          else st.time.getD (JVal.num startDef)) x,
        jsSub (jsAdd (if resolveStep (st.step.getD stepDef) = StepVal.str "-" then JVal.num 0
          else st.time.getD (JVal.num startDef)) x) (st.time.getD (JVal.num startDef)),
        st.step.getD stepDef, n) := by
  simp [timerCore, hF, hE]

/-- Every successful `timerCore` run satisfies `dt = t1 - t0` (JS subtraction). -/
theorem timerCore_dt (clock : ℚ) (st : Rec) (now : Option SampleVal)
    (t1 dt : JVal) (stp : StepVal) (n : ℕ)
    (h : timerCore clock st now = .ok (t1, dt, stp, n)) :
    dt = jsSub t1 (st.time.getD (JVal.num startDef)) := by
  simp only [timerCore] at h
  split at h
  · simp only [Except.ok.injEq, Prod.mk.injEq] at h
    obtain ⟨h1, h2, -, -⟩ := h
    rw [← h1, ← h2]
  · split at h
    · exact absurd h (by simp)
    · simp only [Except.ok.injEq, Prod.mk.injEq] at h
      obtain ⟨h1, h2, -, -⟩ := h
      rw [← h1, ← h2]

/-- A truthy `out` turns a successful core run into a returned record whose
`time`, `dt` and `step` fields hold the computed values. -/
theorem timer_record_of_core (clock : ℚ) (st : Rec) (now : Option SampleVal) (o : OutArg)
    (t1 dt : JVal) (stp : StepVal) (n : ℕ)
    (hC : timerCore clock st now = .ok (t1, dt, stp, n)) (hO : o ≠ OutArg.falsy) :
    ∃ res, timer clock st now o = .ok res ∧
      retRecord res = some ⟨some t1, some dt, some stp⟩ := by
  cases o with
  | falsy => exact absurd rfl hO
  | omitted =>
      exact ⟨⟨RetVal.stateRef, ⟨some t1, some dt, some stp⟩, none, n⟩,
        by simp [timer, hC], rfl⟩
  | fresh o2 =>
      exact ⟨⟨RetVal.freshRef, st, some ⟨some t1, some dt, some stp⟩, n⟩,
        by simp [timer, hC], rfl⟩

/-- A successful core run turns into a successful `timer` call for any `out`
argument, preserving the number of sampler invocations. -/
theorem timer_calls_of_core (clock : ℚ) (st : Rec) (now : Option SampleVal) (o : OutArg)
    (t1 dt : JVal) (stp : StepVal) (n : ℕ)
    (hC : timerCore clock st now = .ok (t1, dt, stp, n)) :
    ∃ res, timer clock st now o = .ok res ∧ res.samplerCalls = n := by
  cases o with
  | falsy =>
      exact ⟨⟨RetVal.bare (if resolveStep (st.step.getD stepDef) = StepVal.str "-"
          then dt else t1), st, none, n⟩,
        by simp [timer, hC], rfl⟩
  | omitted =>
      exact ⟨⟨RetVal.stateRef, ⟨some t1, some dt, some stp⟩, none, n⟩,
        by simp [timer, hC], rfl⟩
  | fresh o2 =>
      exact ⟨⟨RetVal.freshRef, st, some ⟨some t1, some dt, some stp⟩, n⟩,
        by simp [timer, hC], rfl⟩

/-- Diff mode on a numeric sample: `t1 = t`, `dt = t - t0`. -/
theorem timerCore_diff_num (clock t0 t : ℚ) (st : Rec)
    (hT : st.time.getD (JVal.num startDef) = JVal.num t0)
    (hS : resolveStep (st.step.getD stepDef) = StepVal.str "-") :
    timerCore clock st (some (SampleVal.num t)) =
      .ok (JVal.num t, JVal.num (t - t0), st.step.getD stepDef, 0) := by
  have hF : stepFalsy (resolveStep (st.step.getD stepDef)) = false := by
    rw [hS]; rfl
  have h := timerCore_run clock st (some (SampleVal.num t)) hF (JVal.num t) 0 rfl
  rw [hS, hT] at h
  simpa [jsAdd, jsSub, jsToNumber] using h

/-- Truthy, non-diff resolved step on a numeric sample (add mode):
`t1 = t0 + s`, `dt = s`. -/
theorem timerCore_add_num (clock t0 samp : ℚ) (st : Rec)
    (hT : st.time.getD (JVal.num startDef) = JVal.num t0)
    (hD : resolveStep (st.step.getD stepDef) ≠ StepVal.str "-")
    (hF : stepFalsy (resolveStep (st.step.getD stepDef)) = false) :
    timerCore clock st (some (SampleVal.num samp)) =
      .ok (JVal.num (t0 + samp), JVal.num samp, st.step.getD stepDef, 0) := by
  have h := timerCore_run clock st (some (SampleVal.num samp)) hF (JVal.num samp) 0 rfl
  rw [if_neg hD, hT] at h
  simpa [jsAdd, jsSub, jsToNumber] using h

/-- Pause on a numeric previous time: `t1 = t0`, `dt = 0`. -/
theorem timerCore_pause_num (clock t0 : ℚ) (st : Rec) (now : Option SampleVal)
    (hT : st.time.getD (JVal.num startDef) = JVal.num t0)
    (hF : stepFalsy (resolveStep (st.step.getD stepDef)) = true) :
    timerCore clock st now =
      .ok (JVal.num t0, JVal.num 0, st.step.getD stepDef, 0) := by
  have h := timerCore_pause clock st now hF
  rw [hT] at h
  simpa [jsSub, jsToNumber] using h

/-! ## The claims -/

/-- C1: For diff mode — for every state with numeric time `t0` whose step
resolves to the diff code `'-'`, calling `timer` with a numeric sample `t`
and a truthy output record produces a record with `time = t` and
`dt = t - t0`. -/
theorem diff_mode_step (clock t0 t : ℚ) (st : Rec) (o : OutArg)
    (hT : st.time = some (JVal.num t0))
    (hS : resolveStep (st.step.getD stepDef) = StepVal.str "-")
    (hO : o ≠ OutArg.falsy) :
    ∃ res r, timer clock st (some (SampleVal.num t)) o = .ok res ∧
      retRecord res = some r ∧
      r.time = some (JVal.num t) ∧ r.dt = some (JVal.num (t - t0)) := by
  have hC := timerCore_diff_num clock t0 t st (by rw [hT]; rfl) hS
  obtain ⟨res, hRes, hRec⟩ :=
    timer_record_of_core clock st (some (SampleVal.num t)) o _ _ _ _ hC hO
  exact ⟨res, _, hRes, hRec, rfl, rfl⟩

/-- Witness for C1, at the spec's own example: `{ time: 200, step: 'diff' }`
with sample `300` into a fresh object gives `time = 300`, `dt = 100`. -/
theorem diff_mode_step_witness :
    ∃ res r, timer 0 { time := some (JVal.num 200), step := some (StepVal.str "diff") }
        (some (SampleVal.num 300)) (OutArg.fresh {}) = .ok res ∧
      retRecord res = some r ∧
      r.time = some (JVal.num 300) ∧ r.dt = some (JVal.num (300 - 200)) :=
  diff_mode_step 0 200 300 _ _ rfl rfl (by decide)

/-- The documented add/accumulate modes: the canonical code `'+'`, or a
non-zero raw number used as the fixed step. -/
def isAddStep (s : StepVal) : Prop :=
  s = StepVal.str "+" ∨ ∃ q : ℚ, q ≠ 0 ∧ s = StepVal.num q

/-- C2: For add/accumulate mode — for every state with numeric time `t0`
whose step resolves to an add mode, calling `timer` with a numeric sample `s`
and a truthy output record produces a record with `time = t0 + s` and
`dt = s` (so sample `0` leaves `time` unchanged with `dt = 0`). -/
theorem add_mode_step (clock t0 samp : ℚ) (st : Rec) (o : OutArg)
    (hT : st.time = some (JVal.num t0))
    (hS : isAddStep (resolveStep (st.step.getD stepDef)))
    (hO : o ≠ OutArg.falsy) :
    ∃ res r, timer clock st (some (SampleVal.num samp)) o = .ok res ∧
      retRecord res = some r ∧
      r.time = some (JVal.num (t0 + samp)) ∧ r.dt = some (JVal.num samp) := by
  have hD : resolveStep (st.step.getD stepDef) ≠ StepVal.str "-" := by
    rcases hS with h | ⟨q, -, h⟩ <;> rw [h] <;> simp
  have hF : stepFalsy (resolveStep (st.step.getD stepDef)) = false := by
    rcases hS with h | ⟨q, hq, h⟩
    · rw [h]; rfl
    · rw [h]; simp [stepFalsy, hq]
  have hC := timerCore_add_num clock t0 samp st (by rw [hT]; rfl) hD hF
  obtain ⟨res, hRes, hRec⟩ :=
    timer_record_of_core clock st (some (SampleVal.num samp)) o _ _ _ _ hC hO
  exact ⟨res, _, hRes, hRec, rfl, rfl⟩

/-- Witness for C2, at the spec's no-op example: `{ time: 200, step: 'add' }`
with sample `0` keeps `time = 200` and gives `dt = 0`. -/
theorem add_mode_step_witness :
    ∃ res r, timer 0 { time := some (JVal.num 200), step := some (StepVal.str "add") }
        (some (SampleVal.num 0)) OutArg.omitted = .ok res ∧
      retRecord res = some r ∧
      r.time = some (JVal.num (200 + 0)) ∧ r.dt = some (JVal.num 0) :=
  add_mode_step 0 200 0 _ OutArg.omitted rfl (Or.inl rfl) (by decide)

/-- C3: For pause mode — for every state with numeric time `t0` whose step
resolves to the pause code `0`, calling `timer` with any sample (or none) and
a truthy output record produces a record with `time = t0` and `dt = 0`. -/
theorem pause_mode_step (clock t0 : ℚ) (st : Rec) (now : Option SampleVal) (o : OutArg)
    (hT : st.time = some (JVal.num t0))
    (hS : resolveStep (st.step.getD stepDef) = StepVal.num 0)
    (hO : o ≠ OutArg.falsy) :
    ∃ res r, timer clock st now o = .ok res ∧ retRecord res = some r ∧
      r.time = some (JVal.num t0) ∧ r.dt = some (JVal.num 0) := by
  have hF : stepFalsy (resolveStep (st.step.getD stepDef)) = true := by
    rw [hS]; simp [stepFalsy]
  have hC := timerCore_pause_num clock t0 st now (by rw [hT]; rfl) hF
  obtain ⟨res, hRes, hRec⟩ := timer_record_of_core clock st now o _ _ _ _ hC hO
  exact ⟨res, _, hRes, hRec, rfl, rfl⟩

/-- Witness for C3: `{ time: 5, step: 'pause' }` with no sample keeps
`time = 5` and gives `dt = 0`. -/
theorem pause_mode_step_witness :
    ∃ res r, timer 0 { time := some (JVal.num 5), step := some (StepVal.str "pause") }
        none OutArg.omitted = .ok res ∧ retRecord res = some r ∧
      r.time = some (JVal.num 5) ∧ r.dt = some (JVal.num 0) :=
  pause_mode_step 0 5 _ none OutArg.omitted rfl rfl (by decide)

/-- C9: In this variant the default step mode is diff — for every state with
numeric time `t0` and no `step` field, calling `timer` with a numeric sample
`t` and a truthy output record behaves as diff mode: `time = t`,
`dt = t - t0`. -/
theorem default_step_is_diff (clock t0 t : ℚ) (st : Rec) (o : OutArg)
    (hT : st.time = some (JVal.num t0)) (hStep : st.step = none)
    (hO : o ≠ OutArg.falsy) :
    ∃ res r, timer clock st (some (SampleVal.num t)) o = .ok res ∧
      retRecord res = some r ∧
      r.time = some (JVal.num t) ∧ r.dt = some (JVal.num (t - t0)) := by
  have hS : resolveStep (st.step.getD stepDef) = StepVal.str "-" := by
    rw [hStep]; rfl
  have hC := timerCore_diff_num clock t0 t st (by rw [hT]; rfl) hS
  obtain ⟨res, hRes, hRec⟩ :=
    timer_record_of_core clock st (some (SampleVal.num t)) o _ _ _ _ hC hO
  exact ⟨res, _, hRes, hRec, rfl, rfl⟩

/-- Witness for C9: a state with `time = 7` and no `step` field stepped with
sample `10` gives `time = 10`, `dt = 3`. -/
theorem default_step_is_diff_witness :
    ∃ res r, timer 0 { time := some (JVal.num 7) } (some (SampleVal.num 10))
        OutArg.omitted = .ok res ∧ retRecord res = some r ∧
      r.time = some (JVal.num 10) ∧ r.dt = some (JVal.num (10 - 7)) :=
  default_step_is_diff 0 7 10 _ OutArg.omitted rfl rfl (by decide)

/-- C10: When the resolved step mode is pause, a function-valued sample is
never invoked: the call succeeds with zero sampler invocations. -/
theorem pause_never_calls_sampler (clock q : ℚ) (st : Rec) (o : OutArg)
    (hS : resolveStep (st.step.getD stepDef) = StepVal.num 0) :
    ∃ res, timer clock st (some (SampleVal.fn q)) o = .ok res ∧
      res.samplerCalls = 0 := by
  have hF : stepFalsy (resolveStep (st.step.getD stepDef)) = true := by
    rw [hS]; simp [stepFalsy]
  have hC := timerCore_pause clock st (some (SampleVal.fn q)) hF
  exact timer_calls_of_core clock st (some (SampleVal.fn q)) o _ _ _ _ hC

/-- Witness for C10: pausing via the `'⏸'` alias with a function sample
invokes the sampler zero times. -/
theorem pause_never_calls_sampler_witness :
    ∃ res, timer 0 { time := some (JVal.num 1), step := some (StepVal.str "⏸") }
        (some (SampleVal.fn 9)) OutArg.omitted = .ok res ∧
      res.samplerCalls = 0 :=
  pause_never_calls_sampler 0 9 _ OutArg.omitted rfl

/-- Case analysis for a successful `timer` call: the core computation
succeeded, and the result is the branch selected by the `out` argument. -/
theorem timer_ok_elim (clock : ℚ) (st : Rec) (now : Option SampleVal) (o : OutArg)
    (res : TimerOut) (h : timer clock st now o = .ok res) :
    ∃ t1 dt stp n, timerCore clock st now = .ok (t1, dt, stp, n) ∧
      ((o = OutArg.falsy ∧
          res = ⟨RetVal.bare (if resolveStep (st.step.getD stepDef) = StepVal.str "-"
            then dt else t1), st, none, n⟩) ∨
        (o = OutArg.omitted ∧
          res = ⟨RetVal.stateRef, ⟨some t1, some dt, some stp⟩, none, n⟩) ∨
        (∃ o2, o = OutArg.fresh o2 ∧
          res = ⟨RetVal.freshRef, st, some ⟨some t1, some dt, some stp⟩, n⟩)) := by
  unfold timer at h
  cases hC : timerCore clock st now with
  | error e => rw [hC] at h; exact Except.noConfusion h
  | ok v =>
      obtain ⟨t1, dt, stp, n⟩ := v
      rw [hC] at h
      refine ⟨t1, dt, stp, n, rfl, ?_⟩
      cases o with
      | falsy => exact Or.inl ⟨rfl, (Except.ok.inj h).symm⟩
      | omitted => exact Or.inr (Or.inl ⟨rfl, (Except.ok.inj h).symm⟩)
      | fresh o2 => exact Or.inr (Or.inr ⟨o2, rfl, (Except.ok.inj h).symm⟩)

/-- C4 fails on the code: with an unrecognized, non-numeric step string and no
sample, `timer` raises a `TypeError` (it evaluates `isNaN('foo')` to true and
attempts the call `'foo'()`), rather than propagating `NaN`. -/
theorem timer_unrecognized_step_throws :
    timer 0 { time := some (JVal.num 0), step := some (StepVal.str "foo") } none
      OutArg.omitted = .error JsError.typeError := by
  rfl

/-- C4 amended: the timer is not total — whenever the resolved step is truthy
and the resolved sample is a non-numeric, non-callable string, the call
throws a `TypeError` (the code attempts to invoke the value); malformed
inputs only fall through to `NaN` arithmetic in the remaining corners. -/
theorem timer_nonnumeric_sample_throws (clock : ℚ) (st : Rec) (msg : String) (o : OutArg)
    (hF : stepFalsy (resolveStep (st.step.getD stepDef)) = false)
    (hM : jsStrToNum msg = none) :
    timer clock st (some (SampleVal.str msg)) o = .error JsError.typeError := by
  have hC : timerCore clock st (some (SampleVal.str msg)) = .error JsError.typeError := by
    simp [timerCore, hF, resolveT, evalSample, jvIsNaN, hM]
  simp [timer, hC]

/-- Witness for the amended C4: a diff-mode state with the non-numeric sample
`'foo'` and falsy `out` throws. -/
theorem timer_nonnumeric_sample_throws_witness :
    timer 0 { time := some (JVal.num 0), step := some (StepVal.str "-") }
      (some (SampleVal.str "foo")) OutArg.falsy = .error JsError.typeError :=
  timer_nonnumeric_sample_throws 0 _ "foo" OutArg.falsy rfl rfl

/-- C5: For every call that produces an output record, the record's `dt`
equals the record's `time` minus the state's previous time (JS subtraction),
in every step mode. -/
theorem dt_matches_time_change (clock : ℚ) (st : Rec) (now : Option SampleVal)
    (o : OutArg) (res : TimerOut) (r : Rec)
    (h : timer clock st now o = .ok res) (hr : retRecord res = some r) :
    ∃ t1, r.time = some t1 ∧
      r.dt = some (jsSub t1 (st.time.getD (JVal.num startDef))) := by
  obtain ⟨t1, dt, stp, n, hC, hcase⟩ := timer_ok_elim clock st now o res h
  have hdt := timerCore_dt clock st now t1 dt stp n hC
  rcases hcase with ⟨ho, hres⟩ | ⟨ho, hres⟩ | ⟨o2, ho, hres⟩
  · subst hres; exact absurd hr (by simp [retRecord])
  · subst hres
    simp only [retRecord, Option.some.injEq] at hr
    exact ⟨t1, by rw [← hr], by rw [← hr, ← hdt]⟩
  · subst hres
    simp only [retRecord, Option.some.injEq] at hr
    exact ⟨t1, by rw [← hr], by rw [← hr, ← hdt]⟩

/-- Witness for C5: a numeric-step state advanced by its own fixed step. -/
theorem dt_matches_time_change_witness :
    ∃ t1, (⟨some (JVal.num (1 + 5)), some (JVal.num (1 + 5 - 1)),
        some (StepVal.num 5)⟩ : Rec).time = some t1 ∧
      (⟨some (JVal.num (1 + 5)), some (JVal.num (1 + 5 - 1)),
        some (StepVal.num 5)⟩ : Rec).dt
        = some (jsSub t1 ((⟨some (JVal.num 1), none, some (StepVal.num 5)⟩ :
            Rec).time.getD (JVal.num startDef))) :=
  dt_matches_time_change 0
    ⟨some (JVal.num 1), none, some (StepVal.num 5)⟩ none
    OutArg.omitted
    ⟨RetVal.stateRef, ⟨some (JVal.num (1 + 5)), some (JVal.num (1 + 5 - 1)),
      some (StepVal.num 5)⟩, none, 0⟩
    ⟨some (JVal.num (1 + 5)), some (JVal.num (1 + 5 - 1)), some (StepVal.num 5)⟩ rfl rfl

/-- C6 fails on the code: with an add-ish step `'+'`, previous time `0` and
the numeric-string sample `'2'`, a falsy `out` returns the bare JS string
`'02'` (string concatenation in `0 + '2'`), not a bare number. -/
theorem falsy_out_bare_string_counterexample :
    timer 0 ⟨some (JVal.num 0), none, some (StepVal.str "+")⟩
        (some (SampleVal.str "2")) OutArg.falsy
      = .ok ⟨RetVal.bare (JVal.str "02"),
          ⟨some (JVal.num 0), none, some (StepVal.str "+")⟩, none, 0⟩ := by
  rfl

/-- The number contributed by a numeric or function-valued sample. -/
def sampleNum : SampleVal → ℚ
  | .num q => q
  | .fn q => q
  | .str _ => 0

/-- C6 amended: for every state whose `time` is absent or numeric and every
sample that is a number or a zero-argument function, an explicitly falsy
`out` makes the timer return a bare number — the delta when the resolved
step is diff, the new time when it is add or pause.  (String samples are
excluded: a non-numeric string throws, and a numeric string can make the
bare return a string.) -/
theorem falsy_out_returns_bare (clock t0 : ℚ) (st : Rec) (now : SampleVal)
    (hT : st.time.getD (JVal.num startDef) = JVal.num t0)
    (hN : ∀ s, now ≠ SampleVal.str s) :
    ∃ res, timer clock st (some now) OutArg.falsy = .ok res ∧
      res.ret = RetVal.bare (JVal.num
        (if stepFalsy (resolveStep (st.step.getD stepDef)) then t0
         else if resolveStep (st.step.getD stepDef) = StepVal.str "-"
           then sampleNum now - t0
         else t0 + sampleNum now)) := by
  by_cases hF : stepFalsy (resolveStep (st.step.getD stepDef)) = true
  · have hC := timerCore_pause_num clock t0 st (some now) hT hF
    have hD : resolveStep (st.step.getD stepDef) ≠ StepVal.str "-" := by
      intro he; rw [he] at hF; exact absurd hF (by decide)
    refine ⟨⟨RetVal.bare (JVal.num t0), st, none, 0⟩, by simp [timer, hC, hD], ?_⟩
    simp [hF]
  · rw [Bool.not_eq_true] at hF
    obtain ⟨x, nx, hE, hx⟩ : ∃ x nx,
        evalSample (resolveT clock (resolveStep (st.step.getD stepDef)) (some now))
          = .ok (JVal.num x, nx) ∧ sampleNum now = x := by
      cases now with
      | num q => exact ⟨q, 0, rfl, rfl⟩
      | fn q => exact ⟨q, 1, rfl, rfl⟩
      | str s => exact absurd rfl (hN s)
    have hC := timerCore_run clock st (some now) hF (JVal.num x) nx hE
    rw [hT] at hC
    by_cases hD : resolveStep (st.step.getD stepDef) = StepVal.str "-"
    · rw [if_pos hD] at hC
      refine ⟨⟨RetVal.bare (JVal.num (x - t0)), st, none, nx⟩, ?_, ?_⟩
      · simp only [jsAdd, jsSub, jsToNumber] at hC
        simp [timer, hC, hD]
      · rw [hx, if_neg (by simp [hF]), if_pos hD]
    · rw [if_neg hD] at hC
      refine ⟨⟨RetVal.bare (JVal.num (t0 + x)), st, none, nx⟩, ?_, ?_⟩
      · simp only [jsAdd, jsSub, jsToNumber] at hC
        simp [timer, hC, hD]
      · rw [hx, if_neg (by simp [hF]), if_neg hD]

/-- Witness for the amended C6: pausing with a function sample and falsy
`out` returns the bare previous time. -/
theorem falsy_out_returns_bare_witness :
    ∃ res, timer 0 ⟨some (JVal.num 7), none, some (StepVal.str "pause")⟩
        (some (SampleVal.fn 3)) OutArg.falsy = .ok res ∧
      res.ret = RetVal.bare (JVal.num 7) :=
  falsy_out_returns_bare 0 7 ⟨some (JVal.num 7), none, some (StepVal.str "pause")⟩
    (SampleVal.fn 3) rfl (fun _ h => SampleVal.noConfusion h)

/-- The observable outcome of a call: the returned value/object and the final
contents of the two records — everything except the sampler invocation
count. -/
def observe (res : TimerOut) : RetVal × Rec × Option Rec :=
  (res.ret, res.state, res.fresh)

/-- C7: For every state and `out` argument, calling the timer with a
zero-argument function returning `q` yields the same observable result
(return value, state contents, output contents, or thrown error) as calling
it with the literal number `q`. -/
theorem fn_sample_equiv (clock q : ℚ) (st : Rec) (o : OutArg) :
    (timer clock st (some (SampleVal.fn q)) o).map observe
      = (timer clock st (some (SampleVal.num q)) o).map observe := by
  by_cases hF : stepFalsy (resolveStep (st.step.getD stepDef)) = true
  · have h1 := timerCore_pause clock st (some (SampleVal.fn q)) hF
    have h2 := timerCore_pause clock st (some (SampleVal.num q)) hF
    unfold timer
    rw [h1, h2]
  · rw [Bool.not_eq_true] at hF
    have h1 := timerCore_run clock st (some (SampleVal.fn q)) hF (JVal.num q) 1 rfl
    have h2 := timerCore_run clock st (some (SampleVal.num q)) hF (JVal.num q) 0 rfl
    unfold timer
    rw [h1, h2]
    cases o <;> rfl

/-- C8: When `out` is omitted it defaults to `state`: the state object itself
receives the computed `time`/`dt`/`step` and is the returned object.  When
`out` is an explicit fresh object distinct from `state`, the state object is
left unmodified and writing the fresh object is the only effect: it receives
the computed fields and is the returned object. -/
theorem out_aliasing (clock : ℚ) (st : Rec) (now : Option SampleVal) :
    (∀ res, timer clock st now OutArg.omitted = .ok res →
      res.ret = RetVal.stateRef ∧ res.fresh = none ∧
      ∃ t1 dt stp, res.state = ⟨some t1, some dt, some stp⟩) ∧
    (∀ o res, timer clock st now (OutArg.fresh o) = .ok res →
      res.state = st ∧ res.ret = RetVal.freshRef ∧
      ∃ t1 dt stp, res.fresh = some ⟨some t1, some dt, some stp⟩) := by
  constructor
  · intro res h
    obtain ⟨t1, dt, stp, n, hC, hcase⟩ :=
      timer_ok_elim clock st now OutArg.omitted res h
    rcases hcase with ⟨ho, -⟩ | ⟨-, hres⟩ | ⟨o2, ho, -⟩
    · exact OutArg.noConfusion ho
    · subst hres
      exact ⟨rfl, rfl, t1, dt, stp, rfl⟩
    · exact OutArg.noConfusion ho
  · intro o res h
    obtain ⟨t1, dt, stp, n, hC, hcase⟩ :=
      timer_ok_elim clock st now (OutArg.fresh o) res h
    rcases hcase with ⟨ho, -⟩ | ⟨ho, -⟩ | ⟨o2, -, hres⟩
    · exact OutArg.noConfusion ho
    · exact OutArg.noConfusion ho
    · subst hres
      exact ⟨rfl, rfl, t1, dt, stp, rfl⟩

/-- Witness for C8, at the spec's example state: both the in-place call and
the fresh-object call, instantiated concretely. -/
theorem out_aliasing_witness :
    ((⟨RetVal.stateRef, ⟨some (JVal.num (0 + 300)), some (JVal.num (0 + 300 - 200)),
        some (StepVal.str "diff")⟩, none, 0⟩ : TimerOut).ret = RetVal.stateRef ∧
      (⟨RetVal.stateRef, ⟨some (JVal.num (0 + 300)), some (JVal.num (0 + 300 - 200)),
        some (StepVal.str "diff")⟩, none, 0⟩ : TimerOut).fresh = none ∧
      ∃ t1 dt stp, (⟨RetVal.stateRef, ⟨some (JVal.num (0 + 300)), some (JVal.num (0 + 300 - 200)),
        some (StepVal.str "diff")⟩, none, 0⟩ : TimerOut).state
          = ⟨some t1, some dt, some stp⟩) ∧
    ((⟨RetVal.freshRef, ⟨some (JVal.num 200), none, some (StepVal.str "diff")⟩,
        some ⟨some (JVal.num (0 + 300)), some (JVal.num (0 + 300 - 200)),
          some (StepVal.str "diff")⟩, 0⟩ : TimerOut).state
        = ⟨some (JVal.num 200), none, some (StepVal.str "diff")⟩ ∧
      (⟨RetVal.freshRef, ⟨some (JVal.num 200), none, some (StepVal.str "diff")⟩,
        some ⟨some (JVal.num (0 + 300)), some (JVal.num (0 + 300 - 200)),
          some (StepVal.str "diff")⟩, 0⟩ : TimerOut).ret = RetVal.freshRef ∧
      ∃ t1 dt stp, (⟨RetVal.freshRef, ⟨some (JVal.num 200), none, some (StepVal.str "diff")⟩,
        some ⟨some (JVal.num (0 + 300)), some (JVal.num (0 + 300 - 200)),
          some (StepVal.str "diff")⟩, 0⟩ : TimerOut).fresh
          = some ⟨some t1, some dt, some stp⟩) := by
  constructor
  · exact (out_aliasing 0 ⟨some (JVal.num 200), none, some (StepVal.str "diff")⟩
      (some (SampleVal.num 300))).1
      ⟨RetVal.stateRef, ⟨some (JVal.num (0 + 300)), some (JVal.num (0 + 300 - 200)),
        some (StepVal.str "diff")⟩, none, 0⟩ rfl
  · exact (out_aliasing 0 ⟨some (JVal.num 200), none, some (StepVal.str "diff")⟩
      (some (SampleVal.num 300))).2 ⟨none, none, none⟩
      ⟨RetVal.freshRef, ⟨some (JVal.num 200), none, some (StepVal.str "diff")⟩,
        some ⟨some (JVal.num (0 + 300)), some (JVal.num (0 + 300 - 200)),
          some (StepVal.str "diff")⟩, 0⟩ rfl
